import Mathlib

/-!
Shallow embedding of src/Scripts/bifrostWedge.py (class biFrostWedge).
Python strings are modelled as Lean String (a list of characters); the
Python library primitives the script uses (os.path.split, os.path.join,
str.replace, str.split, percent formatting) are modelled as executable
functions on character lists.
-/

namespace BifrostWedge

/-- Model of the tail component of os.path.split: the part of the path
after the last slash (posix). -/
def pyBasename (s : String) : String :=
  ⟨(s.data.reverse.takeWhile (fun c => c ≠ '/')).reverse⟩

/-- Model of Python s.split(sep)[0] for a one-character separator: the
prefix of s before the first occurrence of the separator. -/
def beforeFirst (sep : Char) (s : String) : String :=
  ⟨s.data.takeWhile (fun c => c ≠ sep)⟩

/-- Model of Python s.replace(them, by) for one-character arguments, as used
at lines 53 and 71 of the script: replace every dot with an underscore. -/
def underscoreDots (s : String) : String :=
  ⟨s.data.map (fun c => if c = '.' then '_' else c)⟩

/-- Model of the binary posix os.path.join: if the second component is
absolute it wins; otherwise it is appended with a slash unless the first
component is empty or already ends with a slash. -/
def pyJoin (a b : String) : String :=
  if b.data.head? = some '/' then b
  else if a.data = [] ∨ a.data.getLast? = some '/' then a ++ b
  else a ++ "/" ++ b

/-- Decimal digits of n, least significant first, by fuel-bounded division;
agrees with Nat.digits 10 once the fuel is at least n. -/
def natDigitsRev (fuel n : Nat) : List Nat :=
  match fuel with
  | 0 => []
  | fuel + 1 => if n = 0 then [] else n % 10 :: natDigitsRev fuel (n / 10)

/-- The character of a single decimal digit. -/
def digitChar (d : Nat) : Char := Char.ofNat (48 + d % 10)

/-- Model of Python str(n) for a nonnegative integer n. -/
def pyNatStr (n : Nat) : String :=
  if n = 0 then "0" else ⟨((natDigitsRev n n).reverse.map digitChar)⟩

/-- Model of the Python format percent-zero-two-d applied to a
nonnegative integer, as in line 71 of the script. -/
def fmt02 (n : Nat) : String :=
  if n < 10 then "0" ++ pyNatStr n else pyNatStr n

/-- Zero-pad a string on the left to width w. -/
def zpad (w : Nat) (s : String) : String :=
  ⟨List.replicate (w - s.data.length) '0'⟩ ++ s

/-- Model of the Python format zero-four-d applied to an integer frame
number, as in line 157 of the script. -/
def fmt04 (f : Int) : String :=
  if f < 0 then "-" ++ zpad 3 (pyNatStr f.natAbs) else zpad 4 (pyNatStr f.natAbs)

/-- Model of Python str(i) for an integer. -/
def intStr (f : Int) : String :=
  if f < 0 then "-" ++ pyNatStr f.natAbs else pyNatStr f.natAbs

/-- Model of Python space.join(images), line 186 of the script. -/
def joinSpace : List String → String
  | [] => ""
  | [s] => s
  | s :: rest => s ++ " " ++ joinSpace rest

/-- sceneName of main, line 55: os.path.split(mayaFile) tail, then
split on dot, first component. -/
def sceneNameOf (mayaFile : String) : String :=
  beforeFirst '.' (pyBasename mayaFile)

/-- cacheDir of main, line 58: os.path.join(projDir, cache, bifrost,
sceneName, wedgeNode with dots replaced by underscores). -/
def cacheDirOf (projDir mayaFile wedgeNode : String) : String :=
  pyJoin (pyJoin (pyJoin (pyJoin projDir "cache") "bifrost") (sceneNameOf mayaFile))
    (underscoreDots wedgeNode)

/-- wedgeName of main, line 71: the wedge node with dots replaced by
underscores, an underscore, and the index in percent-zero-two-d form. -/
def wedgeNameOf (wedgeNode : String) (i : Nat) : String :=
  underscoreDots wedgeNode ++ "_" ++ fmt02 i

/-- wedgePath of wedgeSetup, line 134: os.path.join(cacheDir, wedgeName
with the mb extension). -/
def wedgeSetupPath (cacheDir wedgeName : String) : String :=
  pyJoin cacheDir (wedgeName ++ ".mb")

/-- An operation wedgeSetup performs against the host scene through the
embedded command interface (cmds.file, cmds.setAttr, cmds.quit). The
value of a numeric setAttr is carried as its source text, since no claim
depends on float semantics. -/
inductive SceneOp where
  | openFile (path : String)
  | setAttrNum (attr : String) (value : String)
  | setAttrStr (attr : String) (value : String)
  | renameTo (path : String)
  | save
  | quitMaya
  deriving DecidableEq

/-- The scene operations of wedgeSetup, lines 96 to 150, in program
order: open the scene, set the wedge attribute, set the four container
properties, rename, save, quit. -/
def wedgeSetupOps (mayaFile cacheDir containerName wedgeName wedgeNode wedgeValue : String) :
    List SceneOp :=
  [ SceneOp.openFile mayaFile,
    SceneOp.setAttrNum wedgeNode wedgeValue,
    SceneOp.setAttrNum (containerName ++ ".enableDiskCache") "1",
    SceneOp.setAttrNum (containerName ++ ".cachingControl") "2",
    SceneOp.setAttrStr (containerName ++ ".cacheDir") (cacheDir ++ "/"),
    SceneOp.setAttrStr (containerName ++ ".cacheName") wedgeName,
    SceneOp.renameTo (wedgeSetupPath cacheDir wedgeName),
    SceneOp.save,
    SceneOp.quitMaya ]

/-- The attributes targeted by the setAttr operations of a list of scene
operations, in order. -/
def setAttrTargets (ops : List SceneOp) : List String :=
  ops.filterMap (fun op =>
    match op with
    | SceneOp.setAttrNum a _ => some a
    | SceneOp.setAttrStr a _ => some a
    | _ => none)

/-- A post-processing subprocess command of montage, each constructor
holding the arguments the script formats into the fixed template of its
call site (lines 166, 187, 191, 202). -/
inductive PostCmd where
  | annotate (imageFile : String) (label : String)
  | tile (images : String) (out : String)
  | resize (out : String)
  | encode (fps : String) (inPattern : String) (movPath : String)
  deriving DecidableEq

/-- The literal shell command string each post-processing call site
constructs. -/
def postCmdStr : PostCmd → String
  | PostCmd.annotate img lbl =>
      "convert " ++ img ++ " -font Arial -pointsize 40 -background Khaki label:\x27" ++
        lbl ++ "\x27 -gravity Center -append " ++ img
  | PostCmd.tile imgs out => "montage -geometry +0+0 " ++ imgs ++ " " ++ out
  | PostCmd.resize out => "convert -resize 1280x720 " ++ out ++ " " ++ out
  | PostCmd.encode fps inPattern movPath =>
      "ffmpeg -r " ++ fps ++ " -i " ++ inPattern ++ " -c:v libx264 -s 1280x720 " ++ movPath

/-- The per-frame per-variant image file montage annotates and tiles,
line 164: os.path.join(cacheDir, wedgeName dot frame dot jpg). -/
def imageFileOf (cacheDir wedgeNode : String) (i : Nat) (frame : String) : String :=
  pyJoin cacheDir (wedgeNameOf wedgeNode i ++ "." ++ frame ++ ".jpg")

/-- Model of Python range(s, e + 1) over integers. -/
def intRange (s e : Int) : List Int :=
  (List.range (e + 1 - s).toNat).map (fun k => s + k)

/-- The commands montage issues for one frame, lines 157 to 194: one
annotate command per wedge-list element, then one tile command into the
Montage image of the frame, then one resize command on it. -/
def frameCmds (cacheDir wedgeNode : String) (wedgeList : List String) (f : Int) :
    List PostCmd :=
  let frame := fmt04 f
  let tileImages := (List.range wedgeList.length).map
    (fun i => imageFileOf cacheDir wedgeNode i frame)
  (wedgeList.enum.map (fun iv =>
      PostCmd.annotate (imageFileOf cacheDir wedgeNode iv.1 frame)
        (wedgeNameOf wedgeNode iv.1 ++ ": " ++ iv.2)))
  ++ [ PostCmd.tile (joinSpace tileImages) (pyJoin cacheDir ("Montage." ++ frame ++ ".jpg")),
       PostCmd.resize (pyJoin cacheDir ("Montage." ++ frame ++ ".jpg")) ]

/-- The default fps argument of montage; Python renders the float 23.98
as this text when formatting the ffmpeg command. -/
def defaultFps : String := "23.98"

/-- All commands montage issues, lines 155 to 205: the per-frame blocks
for every frame of the range in order, then the single ffmpeg command
writing Montage.mov into the cache directory. -/
def montageCmds (cacheDir wedgeNode : String) (wedgeList : List String) (s e : Int)
    (fps : String) : List PostCmd :=
  ((intRange s e).map (frameCmds cacheDir wedgeNode wedgeList)).flatten
  ++ [ PostCmd.encode fps (pyJoin cacheDir "Montage.%04d.jpg") (pyJoin cacheDir "Montage.mov") ]

/-- An observable action of a run of the script, in temporal order. -/
inductive Event where
  | mkdirs (dir : String)
  | scene (variant : Nat) (op : SceneOp)
  | render (variant : Nat) (cmd : String)
  | halt (msg : String)
  | post (cmd : PostCmd)
  deriving DecidableEq

/-- The renderer command string main constructs at line 80. -/
def renderCmd (s e : Int) (projDir cacheDir wedgeName wedgePath : String) : String :=
  "Render -renderer hw2 -fnc 3 -s " ++ intStr s ++ " -e " ++ intStr e ++
    " -pad 4 -x 1280 -y 720 -of jpg -proj " ++ projDir ++ " -rd " ++ cacheDir ++
    " -im " ++ wedgeName ++ " " ++ wedgePath

/-- The loop of main, lines 68 to 91, over the enumerated wedge list:
each iteration runs wedgeSetup for its variant, then either exits the
process (dry run, line 86) or invokes the blocking renderer (line 84). -/
def wedgeLoop (projDir cacheDir containerName wedgeNode mayaFile : String) (s e : Int)
    (dryRun : Bool) : List (Nat × String) → List Event
  | [] => []
  | (i, v) :: rest =>
    let wedgeName := wedgeNameOf wedgeNode i
    let setupEvents := (wedgeSetupOps mayaFile cacheDir containerName wedgeName wedgeNode v).map
      (Event.scene i)
    if dryRun then
      setupEvents ++ [Event.halt "Not running render. Option dryRun set True"]
    else
      setupEvents ++
        [Event.render i (renderCmd s e projDir cacheDir wedgeName
          (wedgeSetupPath cacheDir wedgeName))] ++
        wedgeLoop projDir cacheDir containerName wedgeNode mayaFile s e dryRun rest

/-- The parsed arguments of the script after a successful argparse run,
lines 33 to 44. -/
structure Args where
  mayaFile : String
  projDir : String
  containerName : String
  node : String
  wedgeList : List String
  frames : Int × Int
  dryRun : Bool
  montage : Bool
  deriving DecidableEq

/-- The trace of main, lines 49 to 92: ensure the cache directory
exists, loop over the enumerated wedge list, and run montage only when
the flag is set and the process did not exit inside the loop (which it
does under dryRun with a nonempty list). -/
def mainTrace (a : Args) : List Event :=
  let cacheDir := cacheDirOf a.projDir a.mayaFile a.node
  Event.mkdirs cacheDir ::
    (wedgeLoop a.projDir cacheDir a.containerName a.node a.mayaFile a.frames.1 a.frames.2
        a.dryRun a.wedgeList.enum
     ++ (if a.montage && !(a.dryRun && !a.wedgeList.isEmpty) then
          (montageCmds cacheDir a.node a.wedgeList a.frames.1 a.frames.2 defaultFps).map
            Event.post
        else []))

/-- The raw command line of an invocation, before argparse validation:
each declared option either given or absent, the frames values already
read as integers. -/
structure RawArgs where
  mayaFile : Option String
  projDir : Option String
  containerName : Option String
  node : Option String
  wedge : Option (List String)
  frames : Option (List Int)
  dryRun : Bool
  montage : Bool

/-- Model of the argparse configuration of lines 33 to 44 with the
documented semantics of required options, nargs plus, and nargs 2:
every required option must be present, the wedge list needs at least
one value, the frame range exactly two. -/
def parseArgs (r : RawArgs) : Except String Args :=
  match r.mayaFile with
  | none => Except.error "the following arguments are required: --mayaFile"
  | some mf =>
    match r.projDir with
    | none => Except.error "the following arguments are required: --projDir"
    | some pd =>
      match r.containerName with
      | none => Except.error "the following arguments are required: --containerName"
      | some cn =>
        match r.node with
        | none => Except.error "the following arguments are required: --node"
        | some nd =>
          match r.wedge with
          | none => Except.error "the following arguments are required: --wedge"
          | some [] => Except.error "argument --wedge: expected at least one argument"
          | some (w :: ws) =>
            match r.frames with
            | some [s, e] => Except.ok ⟨mf, pd, cn, nd, w :: ws, (s, e), r.dryRun, r.montage⟩
            | _ => Except.error "argument --frames: expected 2 arguments"

/-- The whole script: argparse first (init, line 47), which exits before
any other action on a parse error; main only on success. -/
def runScript (r : RawArgs) : List Event :=
  match parseArgs r with
  | Except.error e => [Event.halt e]
  | Except.ok a => mainTrace a

/-- What an exception handler of the script does when its guarded block
raises. -/
inductive FailAction where
  | exitWith (msg : String)
  | returnNone
  deriving DecidableEq

/-- Whether a handler terminates the process. -/
def FailAction.isExit : FailAction → Bool
  | FailAction.exitWith _ => true
  | FailAction.returnNone => false

/-- One try/except block of the script: where it sits and what its
except branch does. -/
structure Handler where
  site : String
  action : FailAction
  deriving DecidableEq

/-- Every try/except block of the script, with the action its except
branch takes: the wedgeSetup call in the loop of main (lines 72 to 75),
the five guarded blocks of wedgeSetup (lines 98 to 146), the annotate
and tile blocks of montage (lines 160 to 194), and the quicktime block
of montage (lines 197 to 207), which catches, prints, and returns None
instead of exiting. -/
def scriptHandlers (mayaFile containerName wedgeNode attrText wedgeValue wedgePath : String) :
    List Handler :=
  [ ⟨"main.wedgeSetup", FailAction.exitWith "Couldn\x27t setup wedgescene file"⟩,
    ⟨"wedgeSetup.floatConversion",
      FailAction.exitWith ("Cant convert " ++ wedgeValue ++ " into a float number")⟩,
    ⟨"wedgeSetup.openScene",
      FailAction.exitWith ("Something went wrong while trying to open the maya scene file: " ++
        mayaFile ++ ". Check the path and try again")⟩,
    ⟨"wedgeSetup.setWedgeAttr",
      FailAction.exitWith ("Couldn\x27t set the wedge attributes " ++ attrText ++
        " on this node: " ++ wedgeNode)⟩,
    ⟨"wedgeSetup.setContainerAttrs",
      FailAction.exitWith ("Couldn\x27t set the Bifrost container: " ++ containerName ++
        " to write status")⟩,
    ⟨"wedgeSetup.saveScene",
      FailAction.exitWith ("Can\x27t save to the following location: " ++ wedgePath ++
        ". Please check and try agian")⟩,
    ⟨"montage.annotate",
      FailAction.exitWith
        "Something wrong happened while adding text to the rendered images. Please check you have imageMagik installed properly"⟩,
    ⟨"montage.tile", FailAction.exitWith "Something wrong happened while tiling images together"⟩,
    ⟨"montage.quicktime", FailAction.returnNone⟩ ]

/-- The events of one non-dry iteration of the loop of main for variant
i with wedge value v. -/
def blockEvents (projDir cacheDir containerName wedgeNode mayaFile : String) (s e : Int)
    (i : Nat) (v : String) : List Event :=
  (wedgeSetupOps mayaFile cacheDir containerName (wedgeNameOf wedgeNode i) wedgeNode v).map
    (Event.scene i)
  ++ [Event.render i (renderCmd s e projDir cacheDir (wedgeNameOf wedgeNode i)
        (wedgeSetupPath cacheDir (wedgeNameOf wedgeNode i)))]

/-- The index of the variant an event belongs to. -/
def varTag : Event → Nat
  | Event.scene i _ => i
  | Event.render i _ => i
  | _ => 0

/-- Whether an event is part of processing one variant of the wedge
list. -/
def isVariantEvent : Event → Bool
  | Event.scene _ _ => true
  | Event.render _ _ => true
  | _ => false

/-- The render command strings of a trace, in order. -/
def rendersOf (tr : List Event) : List String :=
  tr.filterMap (fun ev =>
    match ev with
    | Event.render _ c => some c
    | _ => none)

/-- The call site a post-processing command comes from. -/
inductive PTag where
  | annotateT
  | tileT
  | resizeT
  | encodeT
  deriving DecidableEq

/-- The call site of a post-processing command. -/
def tagOf : PostCmd → PTag
  | PostCmd.annotate _ _ => PTag.annotateT
  | PostCmd.tile _ _ => PTag.tileT
  | PostCmd.resize _ => PTag.resizeT
  | PostCmd.encode _ _ _ => PTag.encodeT

/-- The output image of a tile command, when the command is one. -/
def tileOutOf : PostCmd → Option String
  | PostCmd.tile _ out => some out
  | _ => none

/-- The target image of a resize command, when the command is one. -/
def resizeOutOf : PostCmd → Option String
  | PostCmd.resize out => some out
  | _ => none

/-- The arguments of an encode command, when the command is one. -/
def encodeArgsOf : PostCmd → Option (String × String × String)
  | PostCmd.encode fps inPattern movPath => some (fps, inPattern, movPath)
  | _ => none

/-- The arguments of an annotate command, when the command is one. -/
def annotateArgsOf : PostCmd → Option (String × String)
  | PostCmd.annotate img lbl => some (img, lbl)
  | _ => none

/-- Following the wording of claim C1: the scene file name without its
directory and without its extension, an extension being everything from
the last dot on. -/
def claimSceneNameC1 (mayaFile : String) : String :=
  let b := pyBasename mayaFile
  if b.data.contains '.' then ⟨((b.data.reverse.dropWhile (fun c => c ≠ '.')).tail).reverse⟩
  else b

/-- The cache directory claim C1 asserts the script constructs. -/
def claimCacheDirC1 (projDir mayaFile wedgeNode : String) : String :=
  pyJoin (pyJoin (pyJoin (pyJoin projDir "cache") "bifrost") (claimSceneNameC1 mayaFile))
    (underscoreDots wedgeNode)

/-- Following the wording of the amended claim C1: the scene file name
without its directory, truncated at its first dot. -/
def claimSceneNameC1Amended (mayaFile : String) : String :=
  ⟨(pyBasename mayaFile).data.takeWhile (fun c => c ≠ '.')⟩

/-- The cache directory the amended claim C1 asserts the script
constructs. -/
def claimCacheDirC1Amended (projDir mayaFile wedgeNode : String) : String :=
  pyJoin (pyJoin (pyJoin (pyJoin projDir "cache") "bifrost") (claimSceneNameC1Amended mayaFile))
    (underscoreDots wedgeNode)

/-! Basic facts about the string model. -/

theorem strData_append (a b : String) : (a ++ b).data = a.data ++ b.data := by
  cases a; cases b; rfl

theorem strExt {a b : String} (h : a.data = b.data) : a = b := by
  cases a; cases b; exact congrArg String.mk h

theorem strAppend_cancel_left {a b c : String} (h : a ++ b = a ++ c) : b = c := by
  apply strExt
  have hd := congrArg String.data h
  rw [strData_append, strData_append] at hd
  exact List.append_cancel_left hd

/-! The fuel-bounded digit function agrees with Nat.digits, and the
decimal formatting functions are injective. -/

theorem natDigitsRev_eq_digits : ∀ fuel n, n ≤ fuel → natDigitsRev fuel n = Nat.digits 10 n := by
  intro fuel
  induction fuel with
  | zero =>
    intro n hn
    have : n = 0 := Nat.le_zero.mp hn
    subst this
    simp [natDigitsRev]
  | succ f ih =>
    intro n hn
    by_cases h : n = 0
    · subst h; simp [natDigitsRev]
    · have hpos : 0 < n := Nat.pos_of_ne_zero h
      have hdiv : n / 10 < n := Nat.div_lt_self hpos (by norm_num)
      rw [natDigitsRev, if_neg h, ih (n / 10) (by omega),
        Nat.digits_def' (by norm_num : (1 : Nat) < 10) hpos]

theorem pyNatStr_eq (n : Nat) :
    pyNatStr n = if n = 0 then "0" else ⟨((Nat.digits 10 n).reverse.map digitChar)⟩ := by
  by_cases h : n = 0
  · simp [pyNatStr, h]
  · simp [pyNatStr, h, natDigitsRev_eq_digits n n (Nat.le_refl n)]

theorem digitChar_inj_lt : ∀ d < 10, ∀ e < 10, digitChar d = digitChar e → d = e := by decide

theorem digitChar_ne_zeroChar : ∀ d < 10, d ≠ 0 → digitChar d ≠ '0' := by decide

theorem map_digitChar_inj : ∀ (l₁ l₂ : List Nat), (∀ x ∈ l₁, x < 10) → (∀ x ∈ l₂, x < 10) →
    l₁.map digitChar = l₂.map digitChar → l₁ = l₂ := by
  intro l₁
  induction l₁ with
  | nil => intro l₂ _ _ h; cases l₂ <;> simp_all
  | cons a t ih =>
    intro l₂ h1 h2 h
    cases l₂ with
    | nil => simp_all
    | cons b t2 =>
      simp only [List.map_cons, List.cons.injEq] at h
      have hab : a = b :=
        digitChar_inj_lt a (h1 a (by simp)) b (h2 b (by simp)) h.1
      subst hab
      rw [ih t2 (fun x hx => h1 x (by simp [hx])) (fun x hx => h2 x (by simp [hx])) h.2]

theorem pyNatStr_inj {m n : Nat} (h : pyNatStr m = pyNatStr n) : m = n := by
  rw [pyNatStr_eq, pyNatStr_eq] at h
  by_cases hm : m = 0 <;> by_cases hn : n = 0
  · omega
  · exfalso
    rw [if_pos hm, if_neg hn] at h
    have hd := congrArg String.data h
    simp only [] at hd
    have hnil : Nat.digits 10 n ≠ [] := Nat.digits_ne_nil_iff_ne_zero.mpr hn
    rcases hrev : (Nat.digits 10 n).reverse with _ | ⟨x, t⟩
    · exact hnil (by simpa using congrArg List.reverse hrev)
    · rw [hrev] at hd
      simp only [List.map_cons] at hd
      have hx0 : digitChar x = '0' := by
        have : ('0' : Char) :: [] = digitChar x :: t.map digitChar := hd
        exact (List.cons.inj this).1.symm
      have hxmem : x ∈ Nat.digits 10 n := by
        rw [← List.mem_reverse, hrev]; simp
      have hxlt : x < 10 := Nat.digits_lt_base (by norm_num) hxmem
      have hxne : x ≠ 0 := by
        have htnil : t.map digitChar = [] := by
          have : ('0' : Char) :: [] = digitChar x :: t.map digitChar := hd
          exact ((List.cons.inj this).2).symm
        have ht : t = [] := by simpa using htnil
        have hsing : Nat.digits 10 n = [x] := by
          have := congrArg List.reverse hrev
          simpa [ht] using this
        have hxn : x = n := by
          have h2 := Nat.ofDigits_digits 10 n
          rw [hsing] at h2
          simpa [Nat.ofDigits] using h2
        omega
      exact digitChar_ne_zeroChar x hxlt hxne hx0
  · exfalso
    rw [if_neg hm, if_pos hn] at h
    have hd := congrArg String.data h.symm
    simp only [] at hd
    have hnil : Nat.digits 10 m ≠ [] := Nat.digits_ne_nil_iff_ne_zero.mpr hm
    rcases hrev : (Nat.digits 10 m).reverse with _ | ⟨x, t⟩
    · exact hnil (by simpa using congrArg List.reverse hrev)
    · rw [hrev] at hd
      simp only [List.map_cons] at hd
      have hx0 : digitChar x = '0' := by
        have : ('0' : Char) :: [] = digitChar x :: t.map digitChar := hd
        exact (List.cons.inj this).1.symm
      have hxmem : x ∈ Nat.digits 10 m := by
        rw [← List.mem_reverse, hrev]; simp
      have hxlt : x < 10 := Nat.digits_lt_base (by norm_num) hxmem
      have hxne : x ≠ 0 := by
        have htnil : t.map digitChar = [] := by
          have : ('0' : Char) :: [] = digitChar x :: t.map digitChar := hd
          exact ((List.cons.inj this).2).symm
        have ht : t = [] := by simpa using htnil
        have hsing : Nat.digits 10 m = [x] := by
          have := congrArg List.reverse hrev
          simpa [ht] using this
        have hxm : x = m := by
          have h2 := Nat.ofDigits_digits 10 m
          rw [hsing] at h2
          simpa [Nat.ofDigits] using h2
        omega
      exact digitChar_ne_zeroChar x hxlt hxne hx0
  · rw [if_neg hm, if_neg hn] at h
    have hd := congrArg String.data h
    simp only [] at hd
    have := map_digitChar_inj _ _
      (fun x hx => Nat.digits_lt_base (by norm_num) (List.mem_reverse.mp hx))
      (fun x hx => Nat.digits_lt_base (by norm_num) (List.mem_reverse.mp hx)) hd
    have hdig : Nat.digits 10 m = Nat.digits 10 n := by
      have := congrArg List.reverse this
      simpa using this
    have := congrArg (Nat.ofDigits 10) hdig
    simpa [Nat.ofDigits_digits] using this

theorem pyNatStr_head_ne_zeroChar {n : Nat} (h : n ≠ 0) :
    (pyNatStr n).data.head? ≠ some '0' := by
  rw [pyNatStr_eq, if_neg h]
  have hnil : Nat.digits 10 n ≠ [] := Nat.digits_ne_nil_iff_ne_zero.mpr h
  simp only [List.head?_map, List.head?_reverse]
  rw [List.getLast?_eq_getLast _ hnil]
  have hgl := Nat.getLast_digit_ne_zero 10 h
  have hglmem : (Nat.digits 10 n).getLast hnil ∈ Nat.digits 10 n := List.getLast_mem hnil
  have hgllt : (Nat.digits 10 n).getLast hnil < 10 := Nat.digits_lt_base (by norm_num) hglmem
  intro hc
  have : digitChar ((Nat.digits 10 n).getLast hnil) = '0' := by
    simpa using hc
  exact digitChar_ne_zeroChar _ hgllt hgl this

theorem fmt02_inj {i j : Nat} (h : fmt02 i = fmt02 j) : i = j := by
  unfold fmt02 at h
  by_cases hi : i < 10 <;> by_cases hj : j < 10
  · rw [if_pos hi, if_pos hj] at h
    exact pyNatStr_inj (strAppend_cancel_left h)
  · exfalso
    rw [if_pos hi, if_neg hj] at h
    have hd := congrArg String.data h
    rw [strData_append] at hd
    have : (pyNatStr j).data.head? = some '0' := by
      rw [← hd]; rfl
    exact pyNatStr_head_ne_zeroChar (by omega) this
  · exfalso
    rw [if_neg hi, if_pos hj] at h
    have hd := congrArg String.data h.symm
    rw [strData_append] at hd
    have : (pyNatStr i).data.head? = some '0' := by
      rw [← hd]; rfl
    exact pyNatStr_head_ne_zeroChar (by omega) this
  · rw [if_neg hi, if_neg hj] at h
    exact pyNatStr_inj h

/-! Distinctness of the generated variant names and of derived file
names, and the injectivity of pyJoin in its second argument for
arguments that agree on absoluteness. -/

theorem wedgeNameOf_append_data (wn : String) (i : Nat) (sfx : String) :
    (wedgeNameOf wn i ++ sfx).data =
      (underscoreDots wn).data ++ '_' :: ((fmt02 i).data ++ sfx.data) := by
  simp [wedgeNameOf, strData_append]

theorem wedgeNameOf_append_inj {wn : String} {i j : Nat} (hne : i ≠ j) (sfx : String) :
    wedgeNameOf wn i ++ sfx ≠ wedgeNameOf wn j ++ sfx := by
  intro h
  apply hne
  have hd := congrArg String.data h
  rw [wedgeNameOf_append_data, wedgeNameOf_append_data] at hd
  have h1 := List.append_cancel_left hd
  have h2 := (List.cons.inj h1).2
  have h3 := List.append_cancel_right h2
  exact fmt02_inj (strExt h3)

theorem wedgeNameOf_inj {wn : String} {i j : Nat} (hne : i ≠ j) :
    wedgeNameOf wn i ≠ wedgeNameOf wn j := by
  intro h
  exact wedgeNameOf_append_inj hne "" (by
    have := congrArg (fun s => s ++ "") h
    simpa using this)

theorem wedgeNameOf_append_head (wn : String) (i j : Nat) (sfx : String) :
    (wedgeNameOf wn i ++ sfx).data.head? = (wedgeNameOf wn j ++ sfx).data.head? := by
  rw [wedgeNameOf_append_data, wedgeNameOf_append_data]
  cases (underscoreDots wn).data <;> simp

theorem pyJoin_ne_of_ne {a b₁ b₂ : String} (hne : b₁ ≠ b₂)
    (hh : b₁.data.head? = b₂.data.head?) : pyJoin a b₁ ≠ pyJoin a b₂ := by
  unfold pyJoin
  by_cases h1 : b₁.data.head? = some '/'
  · have h2 : b₂.data.head? = some '/' := by rw [← hh]; exact h1
    rw [if_pos h1, if_pos h2]
    exact hne
  · have h2 : ¬b₂.data.head? = some '/' := by rw [← hh]; exact h1
    rw [if_neg h1, if_neg h2]
    by_cases hc : a.data = [] ∨ a.data.getLast? = some '/'
    · rw [if_pos hc, if_pos hc]
      intro h
      exact hne (strAppend_cancel_left h)
    · rw [if_neg hc, if_neg hc]
      intro h
      exact hne (strAppend_cancel_left h)

/-! Structure of the wedge loop of main. -/

theorem wedgeLoop_false_eq (projDir cacheDir containerName wedgeNode mayaFile : String)
    (s e : Int) : ∀ ps : List (Nat × String),
    wedgeLoop projDir cacheDir containerName wedgeNode mayaFile s e false ps =
      (ps.map (fun iv => blockEvents projDir cacheDir containerName wedgeNode mayaFile
        s e iv.1 iv.2)).flatten := by
  intro ps
  induction ps with
  | nil => rfl
  | cons p rest ih =>
    obtain ⟨i, v⟩ := p
    simp [wedgeLoop, blockEvents, ih]

theorem mem_blockEvents_tag {projDir cacheDir containerName wedgeNode mayaFile : String}
    {s e : Int} {i : Nat} {v : String} {ev : Event}
    (h : ev ∈ blockEvents projDir cacheDir containerName wedgeNode mayaFile s e i v) :
    varTag ev = i ∧ isVariantEvent ev = true := by
  rcases List.mem_append.mp h with hm | hm
  · rcases List.mem_map.mp hm with ⟨op, _, rfl⟩
    exact ⟨rfl, rfl⟩
  · rcases List.mem_singleton.mp hm with rfl
    exact ⟨rfl, rfl⟩

theorem enum_pairwise_fst_le {α : Type} (l : List α) :
    l.enum.Pairwise (fun a b => a.1 ≤ b.1) := by
  have h1 : (List.range l.length).Pairwise (· < ·) := List.pairwise_lt_range _
  have h2 : ((List.range l.length).zip l).map Prod.fst = List.range l.length :=
    List.map_fst_zip _ _ (by simp)
  have h3 : (((List.range l.length).zip l).map Prod.fst).Pairwise (· < ·) := by
    rw [h2]; exact h1
  have h4 := List.pairwise_map.mp h3
  rw [List.enum_eq_zip_range]
  exact h4.imp (fun h => Nat.le_of_lt h)

theorem rendersOf_wedgeLoop_false (projDir cacheDir containerName wedgeNode mayaFile : String)
    (s e : Int) : ∀ ps : List (Nat × String),
    rendersOf (wedgeLoop projDir cacheDir containerName wedgeNode mayaFile s e false ps) =
      ps.map (fun iv => renderCmd s e projDir cacheDir (wedgeNameOf wedgeNode iv.1)
        (wedgeSetupPath cacheDir (wedgeNameOf wedgeNode iv.1))) := by
  intro ps
  induction ps with
  | nil => rfl
  | cons p rest ih =>
    obtain ⟨i, v⟩ := p
    simp [wedgeLoop, rendersOf, wedgeSetupOps, List.filterMap_append] at ih ⊢
    exact ih

theorem map_enum_fst {α β : Type} (l : List α) (g : Nat → β) :
    l.enum.map (fun iv => g iv.1) = (List.range l.length).map g := by
  rw [List.enum_eq_zip_range]
  have h : (fun (iv : Nat × α) => g iv.1) = g ∘ Prod.fst := rfl
  rw [h, ← List.map_map, List.map_fst_zip _ _ (by simp)]

theorem filter_mainTrace_variant (a : Args) (hd : a.dryRun = false) :
    (mainTrace a).filter isVariantEvent =
      wedgeLoop a.projDir (cacheDirOf a.projDir a.mayaFile a.node) a.containerName a.node
        a.mayaFile a.frames.1 a.frames.2 false a.wedgeList.enum := by
  rw [mainTrace]
  simp only [hd]
  rw [List.filter_cons_of_neg (by simp [isVariantEvent]), List.filter_append]
  have hpost : ∀ tail : List Event, (∀ ev ∈ tail, isVariantEvent ev = false) →
      tail.filter isVariantEvent = [] := by
    intro tail h
    simp [List.filter_eq_nil_iff]
    intro ev hev
    simp [h ev hev]
  have h1 : (if a.montage && !(false && !a.wedgeList.isEmpty) then
      (montageCmds (cacheDirOf a.projDir a.mayaFile a.node) a.node a.wedgeList a.frames.1
        a.frames.2 defaultFps).map Event.post else []).filter isVariantEvent = [] := by
    apply hpost
    intro ev hev
    split at hev
    · rcases List.mem_map.mp hev with ⟨c, _, rfl⟩
      rfl
    · simp at hev
  rw [h1]
  rw [List.filter_eq_self.mpr]
  · simp
  · intro ev hev
    rw [wedgeLoop_false_eq] at hev
    rcases List.mem_flatten.mp hev with ⟨blk, hblk, hevblk⟩
    rcases List.mem_map.mp hblk with ⟨iv, _, rfl⟩
    exact (mem_blockEvents_tag hevblk).2

theorem mem_mainTrace_of_mem_block (a : Args) (hd : a.dryRun = false) {iv : Nat × String}
    (hiv : iv ∈ a.wedgeList.enum) {ev : Event}
    (hev : ev ∈ blockEvents a.projDir (cacheDirOf a.projDir a.mayaFile a.node) a.containerName
      a.node a.mayaFile a.frames.1 a.frames.2 iv.1 iv.2) :
    ev ∈ mainTrace a := by
  rw [mainTrace]
  simp only [hd]
  apply List.mem_cons_of_mem
  apply List.mem_append_left
  rw [wedgeLoop_false_eq]
  exact List.mem_flatten.mpr ⟨_, List.mem_map.mpr ⟨iv, hiv, rfl⟩, hev⟩

/-! Structure of the montage command list. -/

theorem map_const_replicate {α β : Type} (l : List α) (b : β) :
    l.map (fun _ => b) = List.replicate l.length b := by
  induction l <;> simp_all [List.replicate_succ]

theorem frameCmds_map_tagOf (cd wn : String) (wl : List String) (f : Int) :
    (frameCmds cd wn wl f).map tagOf =
      List.replicate wl.length PTag.annotateT ++ [PTag.tileT, PTag.resizeT] := by
  simp only [frameCmds, List.map_append, List.map_map]
  congr 1
  have h1 : (tagOf ∘ fun iv : Nat × String =>
      PostCmd.annotate (imageFileOf cd wn iv.1 (fmt04 f))
        (wedgeNameOf wn iv.1 ++ ": " ++ iv.2)) = fun _ => PTag.annotateT := rfl
  rw [h1, map_const_replicate, List.enum_length]

theorem frameCmds_filterMap_annotate (cd wn : String) (wl : List String) (f : Int) :
    (frameCmds cd wn wl f).filterMap annotateArgsOf =
      wl.enum.map (fun iv =>
        (imageFileOf cd wn iv.1 (fmt04 f), wedgeNameOf wn iv.1 ++ ": " ++ iv.2)) := by
  simp only [frameCmds, List.filterMap_append, List.filterMap_map]
  have h1 : (annotateArgsOf ∘ fun iv : Nat × String =>
      PostCmd.annotate (imageFileOf cd wn iv.1 (fmt04 f))
        (wedgeNameOf wn iv.1 ++ ": " ++ iv.2)) = some ∘ (fun iv : Nat × String =>
      (imageFileOf cd wn iv.1 (fmt04 f), wedgeNameOf wn iv.1 ++ ": " ++ iv.2)) := rfl
  rw [h1, List.filterMap_eq_map]
  simp [annotateArgsOf]

theorem frameCmds_filterMap_tile (cd wn : String) (wl : List String) (f : Int) :
    (frameCmds cd wn wl f).filterMap tileOutOf =
      [pyJoin cd ("Montage." ++ fmt04 f ++ ".jpg")] := by
  simp only [frameCmds, List.filterMap_append, List.filterMap_map]
  have h1 : (tileOutOf ∘ fun iv : Nat × String =>
      PostCmd.annotate (imageFileOf cd wn iv.1 (fmt04 f))
        (wedgeNameOf wn iv.1 ++ ": " ++ iv.2)) = fun _ => none := rfl
  rw [h1]
  simp [tileOutOf, resizeOutOf]

theorem frameCmds_filterMap_resize (cd wn : String) (wl : List String) (f : Int) :
    (frameCmds cd wn wl f).filterMap resizeOutOf =
      [pyJoin cd ("Montage." ++ fmt04 f ++ ".jpg")] := by
  simp only [frameCmds, List.filterMap_append, List.filterMap_map]
  have h1 : (resizeOutOf ∘ fun iv : Nat × String =>
      PostCmd.annotate (imageFileOf cd wn iv.1 (fmt04 f))
        (wedgeNameOf wn iv.1 ++ ": " ++ iv.2)) = fun _ => none := rfl
  rw [h1]
  simp [tileOutOf, resizeOutOf]

theorem frameCmds_filterMap_encode (cd wn : String) (wl : List String) (f : Int) :
    (frameCmds cd wn wl f).filterMap encodeArgsOf = [] := by
  simp only [frameCmds, List.filterMap_append, List.filterMap_map]
  have h1 : (encodeArgsOf ∘ fun iv : Nat × String =>
      PostCmd.annotate (imageFileOf cd wn iv.1 (fmt04 f))
        (wedgeNameOf wn iv.1 ++ ": " ++ iv.2)) = fun _ => none := rfl
  rw [h1]
  simp [encodeArgsOf]

theorem flatten_map_singleton {α β : Type} (l : List α) (g : α → β) :
    (l.map (fun x => [g x])).flatten = l.map g := by
  induction l <;> simp_all

/-! Claim statements. -/

/-- C1, counterexample: for a scene file whose basename contains more
than one dot, the cache directory the script constructs is not the one
the claim states, since the script truncates the basename at its first
dot rather than stripping the extension. -/
theorem c1_cacheDir_counterexample :
    cacheDirOf "/p" "/p/scenes/shot_v01.0001.mb" "emitterShape.stiction" ≠
      claimCacheDirC1 "/p" "/p/scenes/shot_v01.0001.mb" "emitterShape.stiction" := by
  decide

/-- C1, amended: the cache directory is projDir/cache/bifrost/(basename
of the scene file truncated at its first dot)/(node argument with dots
replaced by underscores), and the saved variant for index i is the file
(that directory)/(node underscored)_(i as percent-zero-two-d).mb, the
rename-and-save operation of each variant targeting exactly that path
in the trace of main. -/
theorem c1_cacheDir_amended :
    ∀ (projDir mayaFile node : String) (i : Nat),
      cacheDirOf projDir mayaFile node = claimCacheDirC1Amended projDir mayaFile node
      ∧ wedgeSetupPath (cacheDirOf projDir mayaFile node) (wedgeNameOf node i) =
          pyJoin (claimCacheDirC1Amended projDir mayaFile node)
            (underscoreDots node ++ "_" ++ fmt02 i ++ ".mb")
      ∧ ∀ (containerName : String) (wl : List String) (fr : Int × Int) (mont : Bool)
          (iv : Nat × String), iv ∈ wl.enum →
          Event.scene iv.1 (SceneOp.renameTo
            (pyJoin (claimCacheDirC1Amended projDir mayaFile node)
              (underscoreDots node ++ "_" ++ fmt02 iv.1 ++ ".mb"))) ∈
            mainTrace ⟨mayaFile, projDir, containerName, node, wl, fr, false, mont⟩ := by
  intro projDir mayaFile node i
  refine ⟨rfl, rfl, ?_⟩
  intro containerName wl fr mont iv hiv
  apply mem_mainTrace_of_mem_block ⟨mayaFile, projDir, containerName, node, wl, fr, false, mont⟩
    rfl hiv
  apply List.mem_append_left
  exact List.mem_map.mpr ⟨SceneOp.renameTo (wedgeSetupPath
    (cacheDirOf projDir mayaFile node) (wedgeNameOf node iv.1)),
    by simp [wedgeSetupOps], rfl⟩

/-- C1, witness for the amended theorem. -/
theorem c1_cacheDir_amended_witness :
    cacheDirOf "/p" "/p/scenes/s.mb" "e.x" = claimCacheDirC1Amended "/p" "/p/scenes/s.mb" "e.x"
    ∧ wedgeSetupPath (cacheDirOf "/p" "/p/scenes/s.mb" "e.x") (wedgeNameOf "e.x" 0) =
        pyJoin (claimCacheDirC1Amended "/p" "/p/scenes/s.mb" "e.x")
          (underscoreDots "e.x" ++ "_" ++ fmt02 0 ++ ".mb")
    ∧ Event.scene 0 (SceneOp.renameTo
        (pyJoin (claimCacheDirC1Amended "/p" "/p/scenes/s.mb" "e.x")
          (underscoreDots "e.x" ++ "_" ++ fmt02 0 ++ ".mb"))) ∈
        mainTrace ⟨"/p/scenes/s.mb", "/p", "c1", "e.x", ["5"], (1, 2), false, false⟩ := by
  have h := c1_cacheDir_amended "/p" "/p/scenes/s.mb" "e.x" 0
  exact ⟨h.1, h.2.1, h.2.2 "c1" ["5"] (1, 2) false (0, "5") (by decide)⟩

/-- C2, code bug: under the dry-run flag, the loop of main exits the
process inside its first iteration (line 86), so a two-element wedge
list gets exactly one setup-and-save rather than one per element; the
flag is documented as only skipping the render step. -/
theorem c2_dryrun_exits_after_first_variant :
    ((mainTrace ⟨"/p/scenes/s.mb", "/p", "c1", "e.x", ["0", "1"], (1, 2), true, false⟩).countP
      (fun ev => match ev with
        | Event.scene _ SceneOp.save => true
        | _ => false) = 1)
    ∧ (["0", "1"] : List String).length = 2
    ∧ Event.halt "Not running render. Option dryRun set True" ∈
        mainTrace ⟨"/p/scenes/s.mb", "/p", "c1", "e.x", ["0", "1"], (1, 2), true, false⟩ := by
  decide

/-- C3, counterexample: not every exception handler of the script
terminates the process; the quicktime handler of montage returns
normally after a failure. -/
theorem c3_error_handling_counterexample :
    ¬ (∀ h ∈ scriptHandlers "file.mb" "container1" "node.attr" "2.0" "2" "/cd/name.mb",
        h.action.isExit = true) := by
  decide

/-- C3, amended: every operation of the run is wrapped in a handler
that terminates the process with a descriptive message on failure,
except the final video-encoding step of montage, whose handler prints
diagnostics and returns normally; it is the last operation of the run,
so nothing further executes after it either way. -/
theorem c3_error_handling_amended :
    ∀ mayaFile containerName wedgeNode attrText wedgeValue wedgePath : String,
      (scriptHandlers mayaFile containerName wedgeNode attrText wedgeValue wedgePath).filter
          (fun h => !h.action.isExit) = [⟨"montage.quicktime", FailAction.returnNone⟩]
      ∧ (scriptHandlers mayaFile containerName wedgeNode attrText wedgeValue
          wedgePath).getLast? = some ⟨"montage.quicktime", FailAction.returnNone⟩ := by
  intro mayaFile containerName wedgeNode attrText wedgeValue wedgePath
  exact ⟨rfl, rfl⟩

/-- C4: the montage command sequence is fixed: for every frame of the
range in order, one annotate command per wedge-list element (labelling
that variant and value on that variant's frame image), then exactly one
tile command into the Montage image of the frame, then exactly one
resize command on that same Montage image; after all frames, exactly
one encoder command whose input pattern and output Montage.mov live in
the cache directory. -/
theorem c4_montage_structure :
    ∀ (cd wn : String) (wl : List String) (s e : Int) (fps : String),
      ((montageCmds cd wn wl s e fps).map tagOf =
        ((intRange s e).map (fun _ =>
          List.replicate wl.length PTag.annotateT ++ [PTag.tileT, PTag.resizeT])).flatten
          ++ [PTag.encodeT])
      ∧ ((montageCmds cd wn wl s e fps).filterMap annotateArgsOf =
          ((intRange s e).map (fun f => wl.enum.map (fun iv =>
            (imageFileOf cd wn iv.1 (fmt04 f),
              wedgeNameOf wn iv.1 ++ ": " ++ iv.2)))).flatten)
      ∧ ((montageCmds cd wn wl s e fps).filterMap tileOutOf =
          (intRange s e).map (fun f => pyJoin cd ("Montage." ++ fmt04 f ++ ".jpg")))
      ∧ ((montageCmds cd wn wl s e fps).filterMap resizeOutOf =
          (intRange s e).map (fun f => pyJoin cd ("Montage." ++ fmt04 f ++ ".jpg")))
      ∧ ((montageCmds cd wn wl s e fps).filterMap encodeArgsOf =
          [(fps, pyJoin cd "Montage.%04d.jpg", pyJoin cd "Montage.mov")]) := by
  intro cd wn wl s e fps
  refine ⟨?_, ?_, ?_, ?_, ?_⟩
  · rw [montageCmds, List.map_append]
    congr 1
    induction intRange s e with
    | nil => rfl
    | cons f fr ih => simp [frameCmds_map_tagOf, ih]
  · rw [montageCmds, List.filterMap_append]
    have h2 : List.filterMap annotateArgsOf
        [PostCmd.encode fps (pyJoin cd "Montage.%04d.jpg") (pyJoin cd "Montage.mov")] = [] := rfl
    rw [h2, List.append_nil]
    induction intRange s e with
    | nil => rfl
    | cons f fr ih => simp [frameCmds_filterMap_annotate, ih]
  · rw [montageCmds, List.filterMap_append]
    have h2 : List.filterMap tileOutOf
        [PostCmd.encode fps (pyJoin cd "Montage.%04d.jpg") (pyJoin cd "Montage.mov")] = [] := rfl
    rw [h2, List.append_nil]
    induction intRange s e with
    | nil => rfl
    | cons f fr ih => simp [frameCmds_filterMap_tile, ih]
  · rw [montageCmds, List.filterMap_append]
    have h2 : List.filterMap resizeOutOf
        [PostCmd.encode fps (pyJoin cd "Montage.%04d.jpg") (pyJoin cd "Montage.mov")] = [] := rfl
    rw [h2, List.append_nil]
    induction intRange s e with
    | nil => rfl
    | cons f fr ih => simp [frameCmds_filterMap_resize, ih]
  · rw [montageCmds, List.filterMap_append]
    have h1 : ((intRange s e).map (frameCmds cd wn wl)).flatten.filterMap encodeArgsOf = [] := by
      induction intRange s e with
      | nil => rfl
      | cons f fr ih => simp [frameCmds_filterMap_encode, ih]
    rw [h1, List.nil_append]
    rfl

/-- C5: over the wedge list the run is strictly sequential and in list
order: among the per-variant events of the trace of main every event of
an earlier variant precedes every event of a later one, and for every
index of the list the trace contains that variant's save and its
blocking render invocation. -/
theorem c5_sequential_execution :
    ∀ (mayaFile projDir containerName node : String) (wl : List String) (s e : Int)
      (mont : Bool),
      (((mainTrace ⟨mayaFile, projDir, containerName, node, wl, (s, e), false,
          mont⟩).filter isVariantEvent).Pairwise (fun x y => varTag x ≤ varTag y))
      ∧ ∀ i, i < wl.length →
          Event.scene i SceneOp.save ∈
            mainTrace ⟨mayaFile, projDir, containerName, node, wl, (s, e), false, mont⟩
          ∧ Event.render i (renderCmd s e projDir (cacheDirOf projDir mayaFile node)
              (wedgeNameOf node i)
              (wedgeSetupPath (cacheDirOf projDir mayaFile node) (wedgeNameOf node i))) ∈
            mainTrace ⟨mayaFile, projDir, containerName, node, wl, (s, e), false, mont⟩ := by
  intro mayaFile projDir containerName node wl s e mont
  constructor
  · rw [filter_mainTrace_variant _ rfl]
    rw [wedgeLoop_false_eq]
    apply List.pairwise_flatten.mpr
    refine ⟨?_, ?_⟩
    · intro blk hblk
      rcases List.mem_map.mp hblk with ⟨iv, _, rfl⟩
      apply List.pairwise_of_forall_mem_list
      intro x hx y hy
      rw [(mem_blockEvents_tag hx).1, (mem_blockEvents_tag hy).1]
    · apply List.pairwise_map.mpr
      refine (enum_pairwise_fst_le wl).imp ?_
      intro a b hab x hx y hy
      rw [(mem_blockEvents_tag hx).1, (mem_blockEvents_tag hy).1]
      exact hab
  · intro i hi
    have hlen : i < wl.enum.length := by simpa [List.enum_length] using hi
    have hg : wl.enum[i] = (i, wl[i]) := List.getElem_enum wl i hlen
    have hiv : (i, wl[i]) ∈ wl.enum := by
      rw [← hg]
      exact List.getElem_mem hlen
    constructor
    · apply mem_mainTrace_of_mem_block _ rfl hiv
      apply List.mem_append_left
      exact List.mem_map.mpr ⟨SceneOp.save, by simp [wedgeSetupOps], rfl⟩
    · apply mem_mainTrace_of_mem_block _ rfl hiv
      apply List.mem_append_right
      simp [blockEvents]

/-- C5, witness. -/
theorem c5_sequential_execution_witness :
    Event.scene 0 SceneOp.save ∈
      mainTrace ⟨"/p/scenes/s.mb", "/p", "c1", "e.x", ["0"], (1, 2), false, false⟩
    ∧ Event.render 0 (renderCmd 1 2 "/p" (cacheDirOf "/p" "/p/scenes/s.mb" "e.x")
        (wedgeNameOf "e.x" 0)
        (wedgeSetupPath (cacheDirOf "/p" "/p/scenes/s.mb" "e.x") (wedgeNameOf "e.x" 0))) ∈
      mainTrace ⟨"/p/scenes/s.mb", "/p", "c1", "e.x", ["0"], (1, 2), false, false⟩ :=
  (c5_sequential_execution "/p/scenes/s.mb" "/p" "c1" "e.x" ["0"] 1 2 false).2 0 (by decide)

/-- C6: when the dry-run flag is false, the render commands the script
invokes are, in order, exactly the literal renderer template of line 80
with the frame range, project directory, cache directory, variant name
and variant scene path substituted, one per wedge-list index. -/
theorem c6_render_command :
    ∀ (mayaFile projDir containerName node : String) (wl : List String) (s e : Int)
      (mont : Bool),
      rendersOf (mainTrace ⟨mayaFile, projDir, containerName, node, wl, (s, e), false, mont⟩) =
        (List.range wl.length).map (fun i =>
          "Render -renderer hw2 -fnc 3 -s " ++ intStr s ++ " -e " ++ intStr e ++
          " -pad 4 -x 1280 -y 720 -of jpg -proj " ++ projDir ++ " -rd " ++
          cacheDirOf projDir mayaFile node ++ " -im " ++ wedgeNameOf node i ++ " " ++
          pyJoin (cacheDirOf projDir mayaFile node) (wedgeNameOf node i ++ ".mb")) := by
  intro mayaFile projDir containerName node wl s e mont
  have h1 : mainTrace ⟨mayaFile, projDir, containerName, node, wl, (s, e), false, mont⟩ =
      Event.mkdirs (cacheDirOf projDir mayaFile node) ::
        (wedgeLoop projDir (cacheDirOf projDir mayaFile node) containerName node mayaFile
          s e false wl.enum
         ++ (if mont && !(false && !wl.isEmpty) then
              (montageCmds (cacheDirOf projDir mayaFile node) node wl s e defaultFps).map
                Event.post
            else [])) := rfl
  rw [h1]
  have h2 : ∀ tr₁ tr₂ : List Event,
      rendersOf (Event.mkdirs (cacheDirOf projDir mayaFile node) :: (tr₁ ++ tr₂)) =
        rendersOf tr₁ ++ rendersOf tr₂ := by
    intro tr₁ tr₂
    simp [rendersOf, List.filterMap_append]
  rw [h2]
  have h3 : rendersOf (if mont && !(false && !wl.isEmpty) then
      (montageCmds (cacheDirOf projDir mayaFile node) node wl s e defaultFps).map
        Event.post else []) = [] := by
    split
    · simp [rendersOf, List.filterMap_map]
    · rfl
  rw [h3, List.append_nil, rendersOf_wedgeLoop_false]
  rw [map_enum_fst wl (fun i => renderCmd s e projDir (cacheDirOf projDir mayaFile node)
    (wedgeNameOf node i) (wedgeSetupPath (cacheDirOf projDir mayaFile node)
      (wedgeNameOf node i)))]
  rfl

/-- C7, counterexample: the claim of exactly three properties set on
the named container node fails: wedgeSetup sets four container
properties (enableDiskCache, cachingControl, cacheDir, cacheName). -/
theorem c7_container_props_counterexample :
    ¬ ((setAttrTargets (wedgeSetupOps "s.mb" "/cd" "bifrostLiquidContainer1"
        "emitterShape_strength_00" "emitterShape.strength" "2")).countP
          (fun a => "bifrostLiquidContainer1.".data.isPrefixOf a.data) = 3) := by
  decide

/-- C7, amended: for every variant the scene mutations before saving
are: one numeric attribute set on the wedge target, and exactly four
properties set on the named container node (enableDiskCache,
cachingControl, cacheDir, cacheName); no other scene property is
mutated by wedgeSetup. -/
theorem c7_scene_mutations_amended :
    ∀ mayaFile cacheDir containerName wedgeName wedgeNode wedgeValue : String,
      setAttrTargets (wedgeSetupOps mayaFile cacheDir containerName wedgeName wedgeNode
          wedgeValue) =
        wedgeNode :: ["enableDiskCache", "cachingControl", "cacheDir", "cacheName"].map
          (fun p => containerName ++ "." ++ p) := by
  intro mayaFile cacheDir containerName wedgeName wedgeNode wedgeValue
  have hassoc : ∀ p q r : String, p ++ q = r →
      containerName ++ r = containerName ++ p ++ q := by
    intro p q r h
    rw [String.append_assoc, h]
  simp only [setAttrTargets, wedgeSetupOps, List.filterMap_cons, List.map_cons,
    List.map_nil]
  rw [hassoc "." "enableDiskCache" ".enableDiskCache" rfl,
    hassoc "." "cachingControl" ".cachingControl" rfl,
    hassoc "." "cacheDir" ".cacheDir" rfl,
    hassoc "." "cacheName" ".cacheName" rfl]
  rfl

/-- C8: distinct wedge-list indices yield distinct variant names, hence
distinct saved variant scene paths within the same cache directory and
distinct per-frame image file names for any fixed frame. -/
theorem c8_distinct_variant_names :
    ∀ (node : String) (i j : Nat), i ≠ j →
      wedgeNameOf node i ≠ wedgeNameOf node j
      ∧ (∀ cacheDir : String,
          pyJoin cacheDir (wedgeNameOf node i ++ ".mb") ≠
            pyJoin cacheDir (wedgeNameOf node j ++ ".mb"))
      ∧ (∀ cacheDir frame : String,
          imageFileOf cacheDir node i frame ≠ imageFileOf cacheDir node j frame) := by
  intro node i j hne
  refine ⟨wedgeNameOf_inj hne, ?_, ?_⟩
  · intro cacheDir
    exact pyJoin_ne_of_ne (wedgeNameOf_append_inj hne ".mb")
      (wedgeNameOf_append_head node i j ".mb")
  · intro cacheDir frame
    unfold imageFileOf
    have hre : ∀ k : Nat, wedgeNameOf node k ++ "." ++ frame ++ ".jpg" =
        wedgeNameOf node k ++ ("." ++ frame ++ ".jpg") := by
      intro k
      rw [String.append_assoc, String.append_assoc, String.append_assoc "." frame ".jpg"]
    rw [hre i, hre j]
    exact pyJoin_ne_of_ne (wedgeNameOf_append_inj hne ("." ++ frame ++ ".jpg"))
      (wedgeNameOf_append_head node i j ("." ++ frame ++ ".jpg"))

/-- C8, witness. -/
theorem c8_distinct_variant_names_witness :
    wedgeNameOf "e.x" 0 ≠ wedgeNameOf "e.x" 1
    ∧ pyJoin "/cd" (wedgeNameOf "e.x" 0 ++ ".mb") ≠ pyJoin "/cd" (wedgeNameOf "e.x" 1 ++ ".mb")
    ∧ imageFileOf "/cd" "e.x" 0 "0001" ≠ imageFileOf "/cd" "e.x" 1 "0001" := by
  have h := c8_distinct_variant_names "e.x" 0 1 (by decide)
  exact ⟨h.1, h.2.1 "/cd", h.2.2 "/cd" "0001"⟩

/-- C9: the cache-directory string property written onto the container
node is always the cache directory path with a trailing slash appended:
wedgeSetup unconditionally writes cacheDir plus slash (lines 125 to
127), and in the trace of main every variant writes the computed cache
directory plus slash. -/
theorem c9_cacheDir_trailing_slash :
    (∀ mayaFile cacheDir containerName wedgeName wedgeNode wedgeValue : String,
        SceneOp.setAttrStr (containerName ++ ".cacheDir") (cacheDir ++ "/") ∈
          wedgeSetupOps mayaFile cacheDir containerName wedgeName wedgeNode wedgeValue)
    ∧ ∀ (a : Args) (iv : Nat × String), iv ∈ a.wedgeList.enum → a.dryRun = false →
        Event.scene iv.1 (SceneOp.setAttrStr (a.containerName ++ ".cacheDir")
          (cacheDirOf a.projDir a.mayaFile a.node ++ "/")) ∈ mainTrace a := by
  constructor
  · intro mayaFile cacheDir containerName wedgeName wedgeNode wedgeValue
    simp [wedgeSetupOps]
  · intro a iv hiv hd
    apply mem_mainTrace_of_mem_block a hd hiv
    apply List.mem_append_left
    exact List.mem_map.mpr ⟨SceneOp.setAttrStr (a.containerName ++ ".cacheDir")
      (cacheDirOf a.projDir a.mayaFile a.node ++ "/"), by simp [wedgeSetupOps], rfl⟩

/-- C9, witness. -/
theorem c9_cacheDir_trailing_slash_witness :
    Event.scene 0 (SceneOp.setAttrStr ("c1" ++ ".cacheDir")
      (cacheDirOf "/p" "/p/scenes/s.mb" "e.x" ++ "/")) ∈
      mainTrace ⟨"/p/scenes/s.mb", "/p", "c1", "e.x", ["0"], (1, 2), false, false⟩ :=
  c9_cacheDir_trailing_slash.2 ⟨"/p/scenes/s.mb", "/p", "c1", "e.x", ["0"], (1, 2), false,
    false⟩ (0, "0") (by decide) rfl

/-- C10: an invocation that parses successfully has all six required
options present, at least one wedge value, and exactly two frame
integers; an invocation that fails to parse halts with the parse error
before any filesystem or scene operation, its whole trace being that
single halt. -/
theorem c10_argument_validation :
    ∀ r : RawArgs,
      (∀ a : Args, parseArgs r = Except.ok a →
        r.mayaFile = some a.mayaFile ∧ r.projDir = some a.projDir ∧
        r.containerName = some a.containerName ∧ r.node = some a.node ∧
        r.wedge = some a.wedgeList ∧ 1 ≤ a.wedgeList.length ∧
        r.frames = some [a.frames.1, a.frames.2])
      ∧ ∀ msg : String, parseArgs r = Except.error msg →
          runScript r = [Event.halt msg] := by
  intro r
  obtain ⟨mf, pd, cn, nd, w, fr, dr, mo⟩ := r
  constructor
  · intro a h
    rcases mf with _ | mf
    · simp [parseArgs] at h
    rcases pd with _ | pd
    · simp [parseArgs] at h
    rcases cn with _ | cn
    · simp [parseArgs] at h
    rcases nd with _ | nd
    · simp [parseArgs] at h
    rcases w with _ | w
    · simp [parseArgs] at h
    rcases w with _ | ⟨w0, ws⟩
    · simp [parseArgs] at h
    rcases fr with _ | fr
    · simp [parseArgs] at h
    rcases fr with _ | ⟨f0, fr⟩
    · simp [parseArgs] at h
    rcases fr with _ | ⟨f1, fr⟩
    · simp [parseArgs] at h
    rcases fr with _ | ⟨f2, fr⟩
    · simp only [parseArgs, Except.ok.injEq] at h
      rw [← h]
      simp
    · simp [parseArgs] at h
  · intro msg h
    rw [runScript, h]

/-- C10, witness. -/
theorem c10_argument_validation_witness :
    runScript ⟨none, none, none, none, none, none, false, false⟩ =
      [Event.halt "the following arguments are required: --mayaFile"]
    ∧ (some ["0"] : Option (List String)) =
        some (⟨"f", "p", "c", "n", ["0"], (1, 2), false, false⟩ : Args).wedgeList
    ∧ 1 ≤ (⟨"f", "p", "c", "n", ["0"], (1, 2), false, false⟩ : Args).wedgeList.length :=
  ⟨(c10_argument_validation ⟨none, none, none, none, none, none, false, false⟩).2 _ rfl,
    ((c10_argument_validation ⟨some "f", some "p", some "c", some "n", some ["0"],
      some [1, 2], false, false⟩).1 ⟨"f", "p", "c", "n", ["0"], (1, 2), false, false⟩
        rfl).2.2.2.2.1,
    ((c10_argument_validation ⟨some "f", some "p", some "c", some "n", some ["0"],
      some [1, 2], false, false⟩).1 ⟨"f", "p", "c", "n", ["0"], (1, 2), false, false⟩
        rfl).2.2.2.2.2.1⟩

end BifrostWedge
